import Mathlib

/-!
# Load balancer over AI providers (load_balancer.go)

A shallow embedding of `load_balancer.go`.

* A Go call that can end in a run-time panic returns `Except Panic α`.
* `*Node` is `Option Node` (`none` is the nil pointer) and the interface value
  `AIProvider` held by a node is `Option AIProvider` (`none` is the nil interface).
  A non-nil interface value has one of four dynamic types: `ClaudeRequest`,
  `*ClaudeRequest`, `OpenAIRequest`, `*OpenAIRequest`; a pointer may be nil. No code of
  the program writes through a pointer, so a non-nil pointer is its pointee.
* `rand.Seed(time.Now().UnixNano())` followed by `rand.Intn(n)` is outside the
  repository: the outcome of the seeded generator is the oracle value `raw`, and
  `Intn raw n` follows the documented contract of `rand.Intn` (panic when `n <= 0`,
  otherwise a value in `[0, n)`).
* Standard output is the list of the writes performed by `fmt.Printf`, in order;
  `stdoutText` is the text they leave and `lineCount` counts its newline-terminated lines.
-/

namespace LoadBalancerGo

/-! ## Data model -/

/-- MessageData: one message of a request, a role and a content. -/
structure MessageData where
  Role : String
  Content : String
deriving DecidableEq, Repr

/-- ClaudeRequest: request shape of the Claude-style backend. -/
structure ClaudeRequest where
  Model : String
  Messages : List MessageData
deriving DecidableEq, Repr

/-- OpenAIRequest: request shape of the OpenAI-style backend. -/
structure OpenAIRequest where
  Model : String
  Messages : List MessageData
deriving DecidableEq, Repr

/-- Method `func (c ClaudeRequest) GetModel() string`. -/
def ClaudeRequest.GetModel (c : ClaudeRequest) : String :=
  c.Model

/-- Method `func (c ClaudeRequest) GetMessages() []MessageData`. -/
def ClaudeRequest.GetMessages (c : ClaudeRequest) : List MessageData :=
  c.Messages

/-- Method `func (o OpenAIRequest) GetModel() string`. -/
def OpenAIRequest.GetModel (o : OpenAIRequest) : String :=
  o.Model

/-- Method `func (o OpenAIRequest) GetMessages() []MessageData`. -/
def OpenAIRequest.GetMessages (o : OpenAIRequest) : List MessageData :=
  o.Messages

/-- Run-time panics the program can raise. -/
inductive Panic where
  /-- Raised by `rand.Intn(n)` when `n <= 0`. -/
  | intnInvalidArgument
  /-- Slice index out of range. -/
  | indexOutOfRange
  /-- Nil pointer dereference, or method call on a nil interface or through a nil
  pointer. -/
  | nilDereference
deriving DecidableEq, Repr

/-- AIProvider: a non-nil value of the interface `AIProvider`. Its dynamic type is one of
the four types of the repository whose method set has `GetModel` and `GetMessages`: the
two request structs and the pointers to them (`main` stores pointers). In the pointer
variants `none` is the nil pointer. -/
inductive AIProvider where
  | claude (c : ClaudeRequest)
  | claudePtr (c : Option ClaudeRequest)
  | openai (o : OpenAIRequest)
  | openaiPtr (o : Option OpenAIRequest)
deriving DecidableEq, Repr

/-- Interface method `GetModel`, dispatched on the dynamic type. The methods have value
receivers: called through a pointer they first dereference it, and panic when it is
nil. -/
def AIProvider.GetModel : AIProvider → Except Panic String
  | .claude c => Except.ok c.GetModel
  | .claudePtr (some c) => Except.ok c.GetModel
  | .claudePtr none => Except.error Panic.nilDereference
  | .openai o => Except.ok o.GetModel
  | .openaiPtr (some o) => Except.ok o.GetModel
  | .openaiPtr none => Except.error Panic.nilDereference

/-- Interface method `GetMessages`, dispatched on the dynamic type. -/
def AIProvider.GetMessages : AIProvider → Except Panic (List MessageData)
  | .claude c => Except.ok c.GetMessages
  | .claudePtr (some c) => Except.ok c.GetMessages
  | .claudePtr none => Except.error Panic.nilDereference
  | .openai o => Except.ok o.GetMessages
  | .openaiPtr (some o) => Except.ok o.GetMessages
  | .openaiPtr none => Except.error Panic.nilDereference

/-- Whether the interface value holds a nil pointer (it is then not the nil interface). -/
def AIProvider.isNilPointer : AIProvider → Bool
  | .claudePtr none => true
  | .openaiPtr none => true
  | _ => false

/-- Node: `struct { Provider AIProvider }`; `none` is the nil interface value. -/
structure Node where
  Provider : Option AIProvider
deriving DecidableEq, Repr

/-- LoadBalancer: `struct { Nodes []*Node }`; an entry `none` is a nil `*Node`. -/
structure LoadBalancer where
  Nodes : List (Option Node)
deriving DecidableEq, Repr

/-- A registry entry on which `ProcessRequest` can read model and messages: a non-nil
`*Node` whose `Provider` is a non-nil interface value that does not hold a nil pointer. -/
def usableNode : Option Node → Bool
  | some { Provider := some provider } => !provider.isNilPointer
  | _ => false

/-! ## Operations -/

/-- NewLoadBalancer: `return &LoadBalancer{Nodes: nodes}`. -/
def NewLoadBalancer (nodes : List (Option Node)) : LoadBalancer :=
  { Nodes := nodes }

/-- Library call `rand.Intn(n)` on the freshly seeded generator whose outcome is `raw`:
panics when `n <= 0`, otherwise returns a value in `[0, n)`. -/
def Intn (raw : Nat) (n : Int) : Except Panic Nat :=
  if n ≤ 0 then Except.error Panic.intnInvalidArgument
  else Except.ok (raw % n.toNat)

/-- GetNextNode: `nodeIndex := rand.Intn(len(lb.Nodes)); return lb.Nodes[nodeIndex]`. -/
def GetNextNode (lb : LoadBalancer) (raw : Nat) : Except Panic (Option Node) :=
  match Intn raw (lb.Nodes.length : Int) with
  | Except.error e => Except.error e
  | Except.ok nodeIndex =>
    match lb.Nodes[nodeIndex]? with
    | some node => Except.ok node
    | none => Except.error Panic.indexOutOfRange

/-- The write of `fmt.Printf("Processing request for model: %s\n", model)`. -/
def printfModel (model : String) : String :=
  "Processing request for model: " ++ model ++ "\n"

/-- The write of `fmt.Printf("[%s]: %s\n", message.Role, message.Content)`. -/
def printfMessage (message : MessageData) : String :=
  "[" ++ message.Role ++ "]: " ++ message.Content ++ "\n"

/-- The loop `for _, message := range messages { fmt.Printf(...) }`, run on the
standard output `out` written so far. -/
def printMessages : List MessageData → List String → List String
  | [], out => out
  | message :: rest, out => printMessages rest (out ++ [printfMessage message])

/-- ProcessRequest: selects a node, reads model and messages through the interface and
prints them; the result is the sequence of writes to standard output. -/
def ProcessRequest (lb : LoadBalancer) (raw : Nat) : Except Panic (List String) :=
  match GetNextNode lb raw with
  | Except.error e => Except.error e
  | Except.ok none => Except.error Panic.nilDereference
  | Except.ok (some node) =>
    match node.Provider with
    | none => Except.error Panic.nilDereference
    | some provider =>
      match provider.GetModel with
      | Except.error e => Except.error e
      | Except.ok model =>
        match provider.GetMessages with
        | Except.error e => Except.error e
        | Except.ok messages => Except.ok (printMessages messages [printfModel model])

/-- The body of `ProcessRequest` after the selection, on the selected `*Node`. -/
def processNode : Option Node → Except Panic (List String)
  | none => Except.error Panic.nilDereference
  | some node =>
    match node.Provider with
    | none => Except.error Panic.nilDereference
    | some provider =>
      match provider.GetModel with
      | Except.error e => Except.error e
      | Except.ok model =>
        match provider.GetMessages with
        | Except.error e => Except.error e
        | Except.ok messages => Except.ok (printMessages messages [printfModel model])

/-- The text on standard output after the given writes. -/
def stdoutText : List String → String
  | [] => ""
  | write :: writes => write ++ stdoutText writes

/-- Number of newline characters of a text: the number of its lines when every line is
terminated by a newline, as in the text `ProcessRequest` prints. -/
def lineCount (text : String) : Nat :=
  text.data.count (Char.ofNat 10)

/-- Consecutive calls of `GetNextNode` on one balancer, the k-th call with the k-th
outcome of the random source. `GetNextNode` writes no field of the balancer, so every
call sees the same registry. -/
def selections (lb : LoadBalancer) : List Nat → List (Except Panic (Option Node))
  | [] => []
  | raw :: raws => GetNextNode lb raw :: selections lb raws

/-! ## Values of the `main` function -/

/-- The struct `claudeRequest` of `main` points to. -/
def claudeRequest : ClaudeRequest :=
  { Model := "claude-v1",
    Messages := [ { Role := "system", Content := "You are a helpful assistant." },
                  { Role := "user", Content := "Hello from Claude!" } ] }

/-- The struct `openAIRequest` of `main` points to. -/
def openAIRequest : OpenAIRequest :=
  { Model := "gpt-3.5-turbo",
    Messages := [ { Role := "system", Content := "You are a helpful assistant." },
                  { Role := "user", Content := "Hello from OpenAI!" } ] }

/-- The `nodes` of `main`: each `Provider` holds a pointer to a request struct. -/
def mainNodes : List (Option Node) :=
  [ some { Provider := some (AIProvider.claudePtr (some claudeRequest)) },
    some { Provider := some (AIProvider.openaiPtr (some openAIRequest)) } ]

/-- The `loadBalancer` of `main`. -/
def mainLoadBalancer : LoadBalancer :=
  NewLoadBalancer mainNodes

/-! ## Helper lemmas -/

theorem Intn_of_pos (raw : Nat) (n : Nat) (h : 0 < n) :
    Intn raw (n : Int) = Except.ok (raw % n) := by
  have h1 : ¬ ((n : Int) ≤ 0) := by omega
  simp [Intn, h1]

theorem GetNextNode_of_pos (lb : LoadBalancer) (raw : Nat) (h : 0 < lb.Nodes.length) :
    GetNextNode lb raw
      = Except.ok (lb.Nodes.get ⟨raw % lb.Nodes.length, Nat.mod_lt raw h⟩) := by
  unfold GetNextNode
  rw [Intn_of_pos raw _ h]
  simp [List.getElem?_eq_getElem (Nat.mod_lt raw h)]

theorem GetNextNode_nil (lb : LoadBalancer) (raw : Nat) (h : lb.Nodes = []) :
    GetNextNode lb raw = Except.error Panic.intnInvalidArgument := by
  unfold GetNextNode
  rw [h]
  rfl

theorem printMessages_eq (messages : List MessageData) (out : List String) :
    printMessages messages out = out ++ messages.map printfMessage := by
  induction messages generalizing out with
  | nil => simp [printMessages]
  | cons m rest ih => simp [printMessages, ih]

theorem Intn_ok_iff (raw n r : Nat) :
    Intn raw (n : Int) = Except.ok r ↔ 0 < n ∧ raw % n = r := by
  rcases Nat.eq_zero_or_pos n with h0 | hpos
  · subst h0
    simp [Intn]
  · rw [Intn_of_pos raw n hpos]
    constructor
    · intro h
      injection h with h
      exact ⟨hpos, h⟩
    · rintro ⟨_, h⟩
      rw [h]

theorem GetNextNode_of_Intn (lb : LoadBalancer) (raw r : Nat) (h : r < lb.Nodes.length)
    (hr : Intn raw (lb.Nodes.length : Int) = Except.ok r) :
    GetNextNode lb raw = Except.ok (lb.Nodes.get ⟨r, h⟩) := by
  unfold GetNextNode
  rw [hr]
  simp [List.getElem?_eq_getElem h]

theorem GetNextNode_ok_mem (lb : LoadBalancer) (raw : Nat) (p : Option Node)
    (h : GetNextNode lb raw = Except.ok p) : p ∈ lb.Nodes := by
  rcases Nat.eq_zero_or_pos lb.Nodes.length with h0 | hpos
  · rw [GetNextNode_nil lb raw (List.length_eq_zero.mp h0)] at h
    cases h
  · rw [GetNextNode_of_pos lb raw hpos] at h
    injection h with h
    rw [← h]
    exact List.get_mem _ _ _

theorem selections_eq_map (lb : LoadBalancer) (raws : List Nat) :
    selections lb raws = raws.map (GetNextNode lb) := by
  induction raws with
  | nil => rfl
  | cons raw rest ih => simp [selections, ih]

theorem ProcessRequest_eq_processNode (lb : LoadBalancer) (raw : Nat) :
    ProcessRequest lb raw =
      match GetNextNode lb raw with
      | Except.error e => Except.error e
      | Except.ok p => processNode p := by
  unfold ProcessRequest
  cases GetNextNode lb raw with
  | error e => rfl
  | ok p =>
    cases p with
    | none => rfl
    | some node => rfl

theorem ProcessRequest_of_node (lb : LoadBalancer) (raw : Nat) (provider : AIProvider)
    (model : String) (messages : List MessageData)
    (h : GetNextNode lb raw = Except.ok (some { Provider := some provider }))
    (hmodel : provider.GetModel = Except.ok model)
    (hmessages : provider.GetMessages = Except.ok messages) :
    ProcessRequest lb raw
      = Except.ok (printfModel model :: messages.map printfMessage) := by
  rw [ProcessRequest_eq_processNode, h]
  simp [processNode, hmodel, hmessages, printMessages_eq]

theorem provider_reads_of_not_nil (provider : AIProvider)
    (h : provider.isNilPointer = false) :
    ∃ model messages, provider.GetModel = Except.ok model ∧
      provider.GetMessages = Except.ok messages := by
  cases provider with
  | claude c => exact ⟨_, _, rfl, rfl⟩
  | openai o => exact ⟨_, _, rfl, rfl⟩
  | claudePtr c =>
    cases c with
    | none => simp [AIProvider.isNilPointer] at h
    | some c => exact ⟨_, _, rfl, rfl⟩
  | openaiPtr o =>
    cases o with
    | none => simp [AIProvider.isNilPointer] at h
    | some o => exact ⟨_, _, rfl, rfl⟩

theorem usableNode_elim (p : Option Node) (h : usableNode p = true) :
    ∃ provider, p = some { Provider := some provider } ∧ provider.isNilPointer = false := by
  cases p with
  | none => simp [usableNode] at h
  | some node =>
    cases node with
    | mk prov =>
      cases prov with
      | none => simp [usableNode] at h
      | some provider =>
        refine ⟨provider, rfl, ?_⟩
        simpa [usableNode] using h

theorem lineCount_append (a b : String) : lineCount (a ++ b) = lineCount a + lineCount b := by
  simp [lineCount, String.data_append, List.count_append]

theorem lineCount_printfModel (model : String) :
    lineCount (printfModel model) = lineCount model + 1 := by
  unfold printfModel
  rw [lineCount_append, lineCount_append]
  have h1 : lineCount "Processing request for model: " = 0 := by decide
  have h2 : lineCount "\n" = 1 := by decide
  rw [h1, h2]
  omega

theorem lineCount_printfMessage (message : MessageData) :
    lineCount (printfMessage message)
      = lineCount message.Role + lineCount message.Content + 1 := by
  unfold printfMessage
  rw [lineCount_append, lineCount_append, lineCount_append, lineCount_append]
  have h1 : lineCount "[" = 0 := by decide
  have h2 : lineCount "]: " = 0 := by decide
  have h3 : lineCount "\n" = 1 := by decide
  rw [h1, h2, h3]
  omega

theorem lineCount_stdoutText (writes : List String)
    (h : ∀ write ∈ writes, lineCount write = 1) :
    lineCount (stdoutText writes) = writes.length := by
  induction writes with
  | nil => decide
  | cons write rest ih =>
    have h1 : lineCount write = 1 := h write (List.mem_cons_self _ _)
    have h2 := ih (fun w hw => h w (List.mem_cons_of_mem _ hw))
    simp only [stdoutText, lineCount_append, h1, h2, List.length_cons]
    omega

theorem GetNextNode_eq_getElem? (lb : LoadBalancer) (raw : Nat) (h : 0 < lb.Nodes.length) :
    GetNextNode lb raw =
      match lb.Nodes[raw % lb.Nodes.length]? with
      | some node => Except.ok node
      | none => Except.error Panic.indexOutOfRange := by
  unfold GetNextNode
  rw [Intn_of_pos raw _ h]

theorem ProcessRequest_set (lb : LoadBalancer) (i raw : Nat) (p q : Option Node)
    (hp : lb.Nodes[i]? = some p) (hpq : processNode q = processNode p) :
    ProcessRequest { Nodes := lb.Nodes.set i q } raw = ProcessRequest lb raw := by
  have hi : i < lb.Nodes.length := by
    rcases List.getElem?_eq_some.mp hp with ⟨h, _⟩
    exact h
  have hpos : 0 < lb.Nodes.length := Nat.lt_of_le_of_lt (Nat.zero_le i) hi
  have hpos2 : 0 < (LoadBalancer.mk (lb.Nodes.set i q)).Nodes.length := by
    simpa using hpos
  rw [ProcessRequest_eq_processNode, ProcessRequest_eq_processNode,
    GetNextNode_eq_getElem? _ raw hpos2, GetNextNode_eq_getElem? lb raw hpos]
  simp only [List.length_set]
  have hj : raw % lb.Nodes.length < lb.Nodes.length := Nat.mod_lt raw hpos
  by_cases hij : i = raw % lb.Nodes.length
  · rw [← hij, hp]
    simp [List.getElem?_set_self hi, hpq]
  · rw [List.getElem?_set_ne hij]

/-! ## Empty registry -/

/-- C1, as stated, fails: on the balancer with no node `GetNextNode` does not produce a
typed `NoAvailableNodes` result, it ends in the panic of `rand.Intn(0)`. -/
theorem GetNextNode_empty_panics :
    GetNextNode (NewLoadBalancer []) 0 = Except.error Panic.intnInvalidArgument := by
  rfl

/-- C1, amended: for every balancer whose `Nodes` is empty and every outcome of the
random source, `GetNextNode` returns no node. -/
theorem GetNextNode_empty_returns_no_node (lb : LoadBalancer) (raw : Nat)
    (h : lb.Nodes = []) (p : Option Node) :
    GetNextNode lb raw ≠ Except.ok p := by
  rw [GetNextNode_nil lb raw h]
  intro hp
  cases hp

/-- Witness of C1, amended, on the balancer built from no node. -/
theorem GetNextNode_empty_returns_no_node_witness :
    (NewLoadBalancer []).Nodes = [] ∧
      GetNextNode (NewLoadBalancer []) 7 ≠ Except.ok (some { Provider := none }) :=
  ⟨rfl, GetNextNode_empty_returns_no_node (NewLoadBalancer []) 7 rfl
    (some { Provider := none })⟩

/-! ## Selection on a non-empty registry -/

/-- C2: for every balancer and every index `r` below the number of nodes, the random
source can return `r`, and whenever it does `GetNextNode` ends without panic, returns
exactly `lb.Nodes[r]`, and that node is an element of the registry. -/
theorem GetNextNode_returns_drawn_node (lb : LoadBalancer) (r : Nat)
    (h : r < lb.Nodes.length) :
    (∃ raw, Intn raw (lb.Nodes.length : Int) = Except.ok r) ∧
    ∀ raw, Intn raw (lb.Nodes.length : Int) = Except.ok r →
      GetNextNode lb raw = Except.ok (lb.Nodes.get ⟨r, h⟩) ∧
      lb.Nodes.get ⟨r, h⟩ ∈ lb.Nodes := by
  refine ⟨⟨r, ?_⟩, ?_⟩
  · exact (Intn_ok_iff r _ r).mpr ⟨Nat.lt_of_le_of_lt (Nat.zero_le r) h, Nat.mod_eq_of_lt h⟩
  · intro raw hr
    exact ⟨GetNextNode_of_Intn lb raw r h hr, List.get_mem _ _ _⟩

/-- Witness of C2 on the registry of `main`, index 1. -/
theorem GetNextNode_returns_drawn_node_witness :
    (1 < mainLoadBalancer.Nodes.length) ∧
    GetNextNode mainLoadBalancer 5
      = Except.ok (some { Provider := some (AIProvider.openaiPtr (some openAIRequest)) }) :=
  ⟨by decide,
   ((GetNextNode_returns_drawn_node mainLoadBalancer 1 (by decide)).2 5 rfl).1⟩

/-! ## Provider accessors -/

/-- C3: for every model string `m` and message sequence `ms`, a `ClaudeRequest` and an
`OpenAIRequest` built from `(m, ms)` give `GetModel() = m` and `GetMessages() = ms`:
the same length and the same element at every position, also through the interface,
held by value or through a pointer. -/
theorem accessors_return_constructed (m : String) (ms : List MessageData) :
    (ClaudeRequest.mk m ms).GetModel = m ∧
    (ClaudeRequest.mk m ms).GetMessages = ms ∧
    (OpenAIRequest.mk m ms).GetModel = m ∧
    (OpenAIRequest.mk m ms).GetMessages = ms ∧
    (ClaudeRequest.mk m ms).GetMessages.length = ms.length ∧
    (OpenAIRequest.mk m ms).GetMessages.length = ms.length ∧
    (∀ i : Nat, (ClaudeRequest.mk m ms).GetMessages[i]? = ms[i]?) ∧
    (∀ i : Nat, (OpenAIRequest.mk m ms).GetMessages[i]? = ms[i]?) ∧
    (AIProvider.claude (ClaudeRequest.mk m ms)).GetModel = Except.ok m ∧
    (AIProvider.claude (ClaudeRequest.mk m ms)).GetMessages = Except.ok ms ∧
    (AIProvider.openai (OpenAIRequest.mk m ms)).GetModel = Except.ok m ∧
    (AIProvider.openai (OpenAIRequest.mk m ms)).GetMessages = Except.ok ms ∧
    (AIProvider.claudePtr (some (ClaudeRequest.mk m ms))).GetModel = Except.ok m ∧
    (AIProvider.claudePtr (some (ClaudeRequest.mk m ms))).GetMessages = Except.ok ms ∧
    (AIProvider.openaiPtr (some (OpenAIRequest.mk m ms))).GetModel = Except.ok m ∧
    (AIProvider.openaiPtr (some (OpenAIRequest.mk m ms))).GetMessages = Except.ok ms := by
  refine ⟨rfl, rfl, rfl, rfl, rfl, rfl, fun _ => rfl, fun _ => rfl, rfl, rfl, rfl, rfl,
    rfl, rfl, rfl, rfl⟩

/-! ## Determinism of the selection -/

/-- C4, as stated, fails: on the registry of `main` two runs of `GetNextNode` whose
random draws differ return different nodes. -/
theorem GetNextNode_depends_on_draw :
    GetNextNode mainLoadBalancer 0 ≠ GetNextNode mainLoadBalancer 1 := by
  have h0 : GetNextNode mainLoadBalancer 0
      = Except.ok (some { Provider := some (AIProvider.claudePtr (some claudeRequest)) }) := rfl
  have h1 : GetNextNode mainLoadBalancer 1
      = Except.ok (some { Provider := some (AIProvider.openaiPtr (some openAIRequest)) }) := rfl
  rw [h0, h1]
  intro h
  cases h

/-- C4, amended: the selection follows the random draw. On a non-empty registry
`GetNextNode` returns the node at the index the random source gives. With exactly one
registered node two runs return that node whatever their draws. With two or more nodes,
for any two different registry positions there are two draws on which the two runs
return the nodes at these two positions, which are different results as soon as the two
entries differ. -/
theorem GetNextNode_follows_draw (lb : LoadBalancer) :
    (∀ raw, lb.Nodes ≠ [] →
      ∃ r, ∃ h : r < lb.Nodes.length,
        Intn raw (lb.Nodes.length : Int) = Except.ok r ∧
        GetNextNode lb raw = Except.ok (lb.Nodes.get ⟨r, h⟩)) ∧
    (∀ node, lb.Nodes = [node] →
      ∀ raw1 raw2, GetNextNode lb raw1 = Except.ok node ∧
        GetNextNode lb raw2 = Except.ok node) ∧
    (∀ i j (hi : i < lb.Nodes.length) (hj : j < lb.Nodes.length), i ≠ j →
      ∃ raw1 raw2,
        Intn raw1 (lb.Nodes.length : Int) = Except.ok i ∧
        Intn raw2 (lb.Nodes.length : Int) = Except.ok j ∧
        GetNextNode lb raw1 = Except.ok (lb.Nodes.get ⟨i, hi⟩) ∧
        GetNextNode lb raw2 = Except.ok (lb.Nodes.get ⟨j, hj⟩) ∧
        (lb.Nodes.get ⟨i, hi⟩ ≠ lb.Nodes.get ⟨j, hj⟩ →
          GetNextNode lb raw1 ≠ GetNextNode lb raw2)) := by
  refine ⟨?_, ?_, ?_⟩
  · intro raw hne
    have hpos : 0 < lb.Nodes.length := List.length_pos.mpr hne
    exact ⟨raw % lb.Nodes.length, Nat.mod_lt raw hpos, Intn_of_pos raw _ hpos,
      GetNextNode_of_pos lb raw hpos⟩
  · intro node hnode raw1 raw2
    have hpos : 0 < lb.Nodes.length := by rw [hnode]; exact Nat.zero_lt_one
    have hall : ∀ p ∈ lb.Nodes, p = node := by
      intro p hp
      rw [hnode] at hp
      exact List.mem_singleton.mp hp
    have hone : ∀ raw, GetNextNode lb raw = Except.ok node := by
      intro raw
      rw [GetNextNode_of_pos lb raw hpos]
      exact congrArg Except.ok (hall _ (List.get_mem lb.Nodes _ _))
    exact ⟨hone raw1, hone raw2⟩
  · intro i j hi hj _hij
    have hri : Intn i (lb.Nodes.length : Int) = Except.ok i :=
      (Intn_ok_iff i _ i).mpr ⟨Nat.lt_of_le_of_lt (Nat.zero_le i) hi, Nat.mod_eq_of_lt hi⟩
    have hrj : Intn j (lb.Nodes.length : Int) = Except.ok j :=
      (Intn_ok_iff j _ j).mpr ⟨Nat.lt_of_le_of_lt (Nat.zero_le j) hj, Nat.mod_eq_of_lt hj⟩
    refine ⟨i, j, hri, hrj, GetNextNode_of_Intn lb i i hi hri,
      GetNextNode_of_Intn lb j j hj hrj, ?_⟩
    intro hne heq
    rw [GetNextNode_of_Intn lb i i hi hri, GetNextNode_of_Intn lb j j hj hrj] at heq
    injection heq with heq
    exact hne heq

/-- Witness of C4, amended: the registry of `main` at draw 5, a one-node registry at
draws 3 and 8, and positions 0 and 1 of the registry of `main`. -/
theorem GetNextNode_follows_draw_witness :
    (∃ r, ∃ h : r < mainLoadBalancer.Nodes.length,
      Intn 5 (mainLoadBalancer.Nodes.length : Int) = Except.ok r ∧
      GetNextNode mainLoadBalancer 5 = Except.ok (mainLoadBalancer.Nodes.get ⟨r, h⟩)) ∧
    (GetNextNode (NewLoadBalancer [some { Provider := none }]) 3
        = Except.ok (some { Provider := none }) ∧
      GetNextNode (NewLoadBalancer [some { Provider := none }]) 8
        = Except.ok (some { Provider := none })) ∧
    (∃ raw1 raw2,
      Intn raw1 (mainLoadBalancer.Nodes.length : Int) = Except.ok 0 ∧
      Intn raw2 (mainLoadBalancer.Nodes.length : Int) = Except.ok 1 ∧
      GetNextNode mainLoadBalancer raw1
        = Except.ok (mainLoadBalancer.Nodes.get ⟨0, by decide⟩) ∧
      GetNextNode mainLoadBalancer raw2
        = Except.ok (mainLoadBalancer.Nodes.get ⟨1, by decide⟩) ∧
      (mainLoadBalancer.Nodes.get ⟨0, by decide⟩ ≠ mainLoadBalancer.Nodes.get ⟨1, by decide⟩ →
        GetNextNode mainLoadBalancer raw1 ≠ GetNextNode mainLoadBalancer raw2)) :=
  ⟨(GetNextNode_follows_draw mainLoadBalancer).1 5 (by decide),
   (GetNextNode_follows_draw (NewLoadBalancer [some { Provider := none }])).2.1
     (some { Provider := none }) rfl 3 8,
   (GetNextNode_follows_draw mainLoadBalancer).2.2 0 1 (by decide) (by decide) (by decide)⟩

/-! ## Order of consecutive selections -/

/-- C5, as stated, fails: on the two-node registry of `main`, two consecutive selections
whose draws both pick index 0 return the first node twice, not each node once. -/
theorem selections_not_round_robin :
    selections mainLoadBalancer [0, 0] ≠ mainLoadBalancer.Nodes.map Except.ok := by
  have h0 : selections mainLoadBalancer [0, 0]
      = [Except.ok (some { Provider := some (AIProvider.claudePtr (some claudeRequest)) }),
         Except.ok (some { Provider := some (AIProvider.claudePtr (some claudeRequest)) })] := rfl
  have h1 : mainLoadBalancer.Nodes.map (Except.ok : Option Node → Except Panic (Option Node))
      = [Except.ok (some { Provider := some (AIProvider.claudePtr (some claudeRequest)) }),
         Except.ok (some { Provider := some (AIProvider.openaiPtr (some openAIRequest)) })] := rfl
  rw [h0, h1]
  intro h
  injection h with _ h
  injection h with h _
  cases h

/-- C5, amended: for every registry of N nodes, N consecutive selections return each
node exactly once, in registry order, when the k-th random draw picks index k. -/
theorem selections_registry_order (lb : LoadBalancer) (raws : List Nat)
    (hlen : raws.length = lb.Nodes.length)
    (hpick : ∀ k (hk : k < raws.length),
      Intn (raws.get ⟨k, hk⟩) (lb.Nodes.length : Int) = Except.ok k) :
    selections lb raws = lb.Nodes.map Except.ok := by
  rw [selections_eq_map]
  apply List.ext_getElem
  · simp [hlen]
  · intro k h1 h2
    have hk : k < raws.length := by simpa using h1
    have hk2 : k < lb.Nodes.length := by simpa using h2
    have h := GetNextNode_of_Intn lb (raws.get ⟨k, hk⟩) k hk2 (hpick k hk)
    simpa using h

/-- Witness of C5, amended, on the registry of `main` with draws 4 and 7. -/
theorem selections_registry_order_witness :
    selections mainLoadBalancer [4, 7] = mainLoadBalancer.Nodes.map Except.ok :=
  selections_registry_order mainLoadBalancer [4, 7] rfl
    (by
      intro k hk
      have hk2 : k < 2 := hk
      interval_cases k <;> exact (Intn_ok_iff _ _ _).mpr ⟨by decide, by simp [mainLoadBalancer, NewLoadBalancer, mainNodes]⟩)

/-! ## Construction -/

/-- C6, as stated, fails: `NewLoadBalancer` accepts a node whose `Provider` is nil, and
the later `ProcessRequest` on that balancer fails on the nil `Provider`. -/
theorem NewLoadBalancer_accepts_nil_provider :
    (NewLoadBalancer [some { Provider := none }]).Nodes = [some { Provider := none }] ∧
    ProcessRequest (NewLoadBalancer [some { Provider := none }]) 0
      = Except.error Panic.nilDereference :=
  ⟨rfl, rfl⟩

/-- C6, amended: `NewLoadBalancer` validates nothing and stores every node list as
given; when that list is non-empty and each of its entries is a non-nil node whose
`Provider` is a non-nil interface value that holds no nil pointer, `ProcessRequest` on
the balancer so constructed does not fail, whatever the draw. -/
theorem NewLoadBalancer_stores_nodes (nodes : List (Option Node)) :
    (NewLoadBalancer nodes).Nodes = nodes ∧
    (nodes ≠ [] → (∀ p ∈ nodes, usableNode p = true) →
      ∀ raw, ∃ out, ProcessRequest (NewLoadBalancer nodes) raw = Except.ok out) := by
  refine ⟨rfl, ?_⟩
  intro hne husable raw
  have hpos : 0 < (NewLoadBalancer nodes).Nodes.length := List.length_pos.mpr hne
  have hsel := GetNextNode_of_pos (NewLoadBalancer nodes) raw hpos
  obtain ⟨provider, hprovider, hnotnil⟩ :=
    usableNode_elim _ (husable _ (List.get_mem nodes _ (Nat.mod_lt raw hpos)))
  obtain ⟨model, messages, hmodel, hmessages⟩ := provider_reads_of_not_nil provider hnotnil
  refine ⟨_, ProcessRequest_of_node (NewLoadBalancer nodes) raw provider model messages ?_
    hmodel hmessages⟩
  rw [hsel]
  exact congrArg Except.ok hprovider

/-- Witness of C6, amended, on the nodes of `main`. -/
theorem NewLoadBalancer_stores_nodes_witness :
    (NewLoadBalancer mainNodes).Nodes = mainNodes ∧
    ∃ out, ProcessRequest (NewLoadBalancer mainNodes) 0 = Except.ok out :=
  ⟨(NewLoadBalancer_stores_nodes mainNodes).1,
   (NewLoadBalancer_stores_nodes mainNodes).2 (by decide) (by decide) 0⟩

/-! ## Independence from the provider variant -/

/-- C7: for every model `m`, message sequence `ms`, registry position `i` and random
draw, replacing a node holding `ClaudeRequest{m, ms}` at position `i` by a node holding
`OpenAIRequest{m, ms}`, or the reverse, changes neither the index drawn by `GetNextNode`
nor the result of `ProcessRequest`; the same holds when the node holds a pointer to the
request, as the nodes of `main` do. -/
theorem provider_variant_irrelevant (lb : LoadBalancer) (i raw : Nat) (m : String)
    (ms : List MessageData) :
    (lb.Nodes[i]? = some (some { Provider := some (AIProvider.claude { Model := m, Messages := ms }) }) →
      Intn raw ((lb.Nodes.set i
          (some { Provider := some (AIProvider.openai { Model := m, Messages := ms }) })).length : Int)
        = Intn raw (lb.Nodes.length : Int) ∧
      ProcessRequest (LoadBalancer.mk (lb.Nodes.set i
          (some { Provider := some (AIProvider.openai { Model := m, Messages := ms }) }))) raw
        = ProcessRequest lb raw) ∧
    (lb.Nodes[i]? = some (some { Provider := some (AIProvider.openai { Model := m, Messages := ms }) }) →
      Intn raw ((lb.Nodes.set i
          (some { Provider := some (AIProvider.claude { Model := m, Messages := ms }) })).length : Int)
        = Intn raw (lb.Nodes.length : Int) ∧
      ProcessRequest (LoadBalancer.mk (lb.Nodes.set i
          (some { Provider := some (AIProvider.claude { Model := m, Messages := ms }) }))) raw
        = ProcessRequest lb raw) ∧
    (lb.Nodes[i]? = some (some (Node.mk
          (some (AIProvider.claudePtr (some { Model := m, Messages := ms }))))) →
      Intn raw ((lb.Nodes.set i (some (Node.mk
          (some (AIProvider.openaiPtr (some { Model := m, Messages := ms })))))).length : Int)
        = Intn raw (lb.Nodes.length : Int) ∧
      ProcessRequest (LoadBalancer.mk (lb.Nodes.set i (some (Node.mk
          (some (AIProvider.openaiPtr (some { Model := m, Messages := ms }))))))) raw
        = ProcessRequest lb raw) ∧
    (lb.Nodes[i]? = some (some (Node.mk
          (some (AIProvider.openaiPtr (some { Model := m, Messages := ms }))))) →
      Intn raw ((lb.Nodes.set i (some (Node.mk
          (some (AIProvider.claudePtr (some { Model := m, Messages := ms })))))).length : Int)
        = Intn raw (lb.Nodes.length : Int) ∧
      ProcessRequest (LoadBalancer.mk (lb.Nodes.set i (some (Node.mk
          (some (AIProvider.claudePtr (some { Model := m, Messages := ms }))))))) raw
        = ProcessRequest lb raw) := by
  refine ⟨?_, ?_, ?_, ?_⟩ <;> intro h <;>
    exact ⟨by rw [List.length_set], ProcessRequest_set lb i raw _ _ h rfl⟩

/-- Witness of C7: the Claude node of `main`, drawn at draw 4, replaced by an OpenAI
node with the same model and messages. -/
theorem provider_variant_irrelevant_witness :
    ProcessRequest (LoadBalancer.mk (mainLoadBalancer.Nodes.set 0
        (some { Provider := some (AIProvider.openaiPtr
          (some { Model := claudeRequest.Model, Messages := claudeRequest.Messages })) }))) 4
      = ProcessRequest mainLoadBalancer 4 :=
  ((provider_variant_irrelevant mainLoadBalancer 0 4 claudeRequest.Model
      claudeRequest.Messages).2.2.1 rfl).2

/-! ## Load awareness -/

/-- C8, as stated, fails: the selection reads no per-node load. With any in-flight
count attached to the registry positions of `main` that is smaller at position 0 than at
position 1, the draw that picks index 1 still returns the node at position 1. -/
theorem GetNextNode_not_least_connections :
    ¬ (∀ (lb : LoadBalancer) (in_flight : Nat → Nat) (a b raw : Nat)
        (_ : a < lb.Nodes.length) (hb : b < lb.Nodes.length),
        in_flight a < in_flight b →
        ¬ (Intn raw (lb.Nodes.length : Int) = Except.ok b ∧
           GetNextNode lb raw = Except.ok (lb.Nodes.get ⟨b, hb⟩))) := by
  intro h
  exact h mainLoadBalancer (fun k => k) 0 1 1 (by decide) (by decide) (by decide) ⟨rfl, rfl⟩

/-- C8, amended: the selection ignores load. For every registry, every assignment of
in-flight counts to registry positions and every pair of positions A and B with
`in_flight A < in_flight B`, some random draw picks the index of B, and on that draw
`GetNextNode` returns the node at B. -/
theorem GetNextNode_ignores_load (lb : LoadBalancer) (in_flight : Nat → Nat) (a b : Nat)
    (_ha : a < lb.Nodes.length) (hb : b < lb.Nodes.length)
    (_hload : in_flight a < in_flight b) :
    ∃ raw, Intn raw (lb.Nodes.length : Int) = Except.ok b ∧
      GetNextNode lb raw = Except.ok (lb.Nodes.get ⟨b, hb⟩) := by
  have hr : Intn b (lb.Nodes.length : Int) = Except.ok b :=
    (Intn_ok_iff b _ b).mpr ⟨Nat.lt_of_le_of_lt (Nat.zero_le b) hb, Nat.mod_eq_of_lt hb⟩
  exact ⟨b, hr, GetNextNode_of_Intn lb b b hb hr⟩

/-- Witness of C8, amended, on the registry of `main`. -/
theorem GetNextNode_ignores_load_witness :
    ∃ raw, Intn raw (mainLoadBalancer.Nodes.length : Int) = Except.ok 1 ∧
      GetNextNode mainLoadBalancer raw
        = Except.ok (mainLoadBalancer.Nodes.get ⟨1, by decide⟩) :=
  GetNextNode_ignores_load mainLoadBalancer (fun k => 10 * k) 0 1 (by decide) (by decide)
    (by decide)

/-! ## Output of a request -/

/-- C9, as stated, fails, on two inputs. A `Provider` holding a nil `*ClaudeRequest` is
a non-nil `Provider`, yet `ProcessRequest` panics and writes nothing. And with the
content "a\nb" in the first of two messages the text written has 4 lines, not 1 + 2. -/
theorem ProcessRequest_output_fails :
    ((∀ p ∈ (NewLoadBalancer [some { Provider := some (AIProvider.claudePtr none) }]).Nodes,
        ∃ node provider, p = some node ∧ node.Provider = some provider) ∧
      ProcessRequest (NewLoadBalancer [some { Provider := some (AIProvider.claudePtr none) }]) 0
        = Except.error Panic.nilDereference) ∧
    (ProcessRequest (NewLoadBalancer [some { Provider := some (AIProvider.claude
          { Model := "m", Messages := [ { Role := "user", Content := "a\nb" },
                                        { Role := "user", Content := "c" } ] }) }]) 0
        = Except.ok ["Processing request for model: m\n", "[user]: a\nb\n", "[user]: c\n"] ∧
      lineCount (stdoutText
        ["Processing request for model: m\n", "[user]: a\nb\n", "[user]: c\n"]) = 4) := by
  refine ⟨⟨?_, rfl⟩, ?_, by decide⟩
  · intro p hp
    have hp2 : p = some { Provider := some (AIProvider.claudePtr none) } :=
      List.mem_singleton.mp hp
    exact ⟨_, _, hp2, rfl⟩
  · exact congrArg Except.ok (by decide)

/-- C9, amended: for every balancer with a non-empty registry whose entries are non-nil
nodes with a non-nil `Provider` that holds no nil pointer, and every draw `r` below the
number of nodes, `ProcessRequest` writes exactly "Processing request for model: <model>"
and a newline for the model of `Nodes[r]`, followed by "[<role>]: <content>" and a
newline per message of `Nodes[r]`, in the order of the messages, none skipped or
repeated: `1 + len(messages)` writes. The text has `1 + len(messages)` lines when neither
the model nor any role or content contains a newline. -/
theorem ProcessRequest_output (lb : LoadBalancer) (raw r : Nat)
    (hne : lb.Nodes ≠ [])
    (husable : ∀ p ∈ lb.Nodes, usableNode p = true)
    (hr : Intn raw (lb.Nodes.length : Int) = Except.ok r) :
    ∃ provider model messages writes,
      lb.Nodes[r]? = some (some { Provider := some provider }) ∧
      provider.GetModel = Except.ok model ∧
      provider.GetMessages = Except.ok messages ∧
      ProcessRequest lb raw = Except.ok writes ∧
      writes = ("Processing request for model: " ++ model ++ "\n") ::
              messages.map
                (fun message => "[" ++ message.Role ++ "]: " ++ message.Content ++ "\n") ∧
      writes.length = 1 + messages.length ∧
      (lineCount model = 0 →
        (∀ message ∈ messages, lineCount message.Role = 0 ∧ lineCount message.Content = 0) →
        lineCount (stdoutText writes) = 1 + messages.length) := by
  have _hpos : 0 < lb.Nodes.length := List.length_pos.mpr hne
  have hlt : r < lb.Nodes.length := by
    rcases (Intn_ok_iff raw _ r).mp hr with ⟨hpos, hmod⟩
    rw [← hmod]
    exact Nat.mod_lt raw hpos
  obtain ⟨provider, hprovider, hnotnil⟩ :=
    usableNode_elim _ (husable _ (List.get_mem lb.Nodes r hlt))
  obtain ⟨model, messages, hmodel, hmessages⟩ := provider_reads_of_not_nil provider hnotnil
  have hsel : GetNextNode lb raw = Except.ok (some { Provider := some provider }) := by
    rw [GetNextNode_of_Intn lb raw r hlt hr, hprovider]
  have hlen : (printfModel model :: messages.map printfMessage).length
      = 1 + messages.length := by
    simp [Nat.add_comm]
  refine ⟨provider, model, messages, _, ?_, hmodel, hmessages,
    ProcessRequest_of_node lb raw provider model messages hsel hmodel hmessages, rfl,
    hlen, ?_⟩
  · rw [List.getElem?_eq_getElem hlt]
    exact congrArg some hprovider
  · intro hm hms
    rw [lineCount_stdoutText, hlen]
    intro write hwrite
    rcases List.mem_cons.mp hwrite with hw | hw
    · rw [hw, lineCount_printfModel, hm]
    · obtain ⟨message, hmem, hfmt⟩ := List.mem_map.mp hw
      rw [← hfmt, lineCount_printfMessage, (hms message hmem).1, (hms message hmem).2]

/-- Witness of C9, amended, on the registry of `main`, draw 3: the OpenAI node, whose
three writes make three lines. -/
theorem ProcessRequest_output_witness :
    ∃ provider model messages writes,
      mainLoadBalancer.Nodes[1]? = some (some { Provider := some provider }) ∧
      provider.GetModel = Except.ok model ∧
      provider.GetMessages = Except.ok messages ∧
      ProcessRequest mainLoadBalancer 3 = Except.ok writes ∧
      writes = ("Processing request for model: " ++ model ++ "\n") ::
              messages.map
                (fun message => "[" ++ message.Role ++ "]: " ++ message.Content ++ "\n") ∧
      writes.length = 1 + messages.length ∧
      (lineCount model = 0 →
        (∀ message ∈ messages, lineCount message.Role = 0 ∧ lineCount message.Content = 0) →
        lineCount (stdoutText writes) = 1 + messages.length) :=
  ProcessRequest_output mainLoadBalancer 3 1 (by decide) (by decide) rfl

/-! ## Reachability of every node -/

/-- C10: for every non-empty registry and every index `i` below the number of nodes some
random draw makes `GetNextNode` return `Nodes[i]`; the nodes `GetNextNode` can return
are exactly the registered nodes. -/
theorem GetNextNode_reaches_every_node (lb : LoadBalancer) (hne : lb.Nodes ≠ []) :
    (∀ i (h : i < lb.Nodes.length),
      ∃ raw, GetNextNode lb raw = Except.ok (lb.Nodes.get ⟨i, h⟩)) ∧
    (∀ p, (∃ raw, GetNextNode lb raw = Except.ok p) ↔ p ∈ lb.Nodes) := by
  have _hpos : 0 < lb.Nodes.length := List.length_pos.mpr hne
  have hreach : ∀ i (h : i < lb.Nodes.length),
      ∃ raw, GetNextNode lb raw = Except.ok (lb.Nodes.get ⟨i, h⟩) := by
    intro i h
    refine ⟨i, GetNextNode_of_Intn lb i i h ?_⟩
    exact (Intn_ok_iff i _ i).mpr ⟨Nat.lt_of_le_of_lt (Nat.zero_le i) h, Nat.mod_eq_of_lt h⟩
  refine ⟨hreach, ?_⟩
  intro p
  constructor
  · rintro ⟨raw, h⟩
    exact GetNextNode_ok_mem lb raw p h
  · intro hp
    obtain ⟨n, hn⟩ := List.mem_iff_get.mp hp
    obtain ⟨raw, hraw⟩ := hreach n.1 n.2
    exact ⟨raw, by rw [hraw, ← hn]⟩

/-- Witness of C10 on the registry of `main`. -/
theorem GetNextNode_reaches_every_node_witness :
    (∀ i (h : i < mainLoadBalancer.Nodes.length),
      ∃ raw, GetNextNode mainLoadBalancer raw
        = Except.ok (mainLoadBalancer.Nodes.get ⟨i, h⟩)) ∧
    (∀ p, (∃ raw, GetNextNode mainLoadBalancer raw = Except.ok p)
      ↔ p ∈ mainLoadBalancer.Nodes) :=
  GetNextNode_reaches_every_node mainLoadBalancer (by decide)

end LoadBalancerGo
